import Mathlib

/-!
Shallow embedding of django-auditlog's two source modules.

`auditlog/models.py` is modelled by: `LogEntry` (one stored row), a database
as a `List LogEntry`, the manager operations `log_create`, `get_for_object`
and `get_for_model` as functions on that list, and the row accessors
`changes_dict` / `changes_str`.

`auditlog/middleware.py` is modelled by: `Request` (the thread-local request,
with its META header dictionary as an association list and the result of
`get_full_path()` as a character list), and the bridge accessors
`get_current_ip` / `get_current_path` taking the current request as an
`Option Request` (none models "no request in the thread locals").

Python primary keys reaching `_get_pk_value` are either an `int`, some other
value (rendered here as its text form), or `None`; `PkValue` is that sum.
-/

/-- A Python primary-key value as used by `LogEntryManager._get_pk_value`:
an `int`, a non-integer key (kept as its textual value, matching the
`object_pk` text field), or `None` (missing attribute). -/
inductive PkValue where
  | intPk : Int → PkValue
  | strPk : String → PkValue
  | nonePk : PkValue
deriving DecidableEq

/-- One stored `LogEntry` row (`auditlog/models.py`, class `LogEntry`).
Fields not involved in any claim (actor, timestamp, ip_address,
request_path) are captured at creation from the bridge and never read by
the modelled operations, so they are omitted from the row. -/
structure LogEntry where
  content_type : Nat
  object_pk : PkValue
  object_id : Option Int
  object_repr : String
  action : Option Nat
  changes : String
deriving DecidableEq

/-- `LogEntry.Action.CREATE` -/
def LogEntry.Action.CREATE : Nat := 0

/-- `LogEntry.Action.UPDATE` -/
def LogEntry.Action.UPDATE : Nat := 1

/-- `LogEntry.Action.DELETE` -/
def LogEntry.Action.DELETE : Nat := 2

/-- A model instance as seen by the manager: its content type
(`ContentType.objects.get_for_model(instance)`), its primary-key value
(`_get_pk_value(instance)`), and `str(instance)`. -/
structure MInstance where
  content_type : Nat
  pk : PkValue
  strRepr : String
deriving DecidableEq

/-- The keyword arguments of `log_create` that the method itself reads or
defaults.  A `none` field models the key being absent from `kwargs`. -/
structure Kwargs where
  changes : Option String
  action : Option Nat
  content_type : Option Nat
  object_pk : Option PkValue
  object_id : Option Int
  object_repr : Option String
deriving DecidableEq

/-- The `kwargs.setdefault(...)` block of `log_create`: `content_type`,
`object_pk` and `object_repr` are always defaulted; `object_id` is
defaulted to the pk only when `isinstance(pk, int)`. -/
def effKwargs (inst : MInstance) (kw : Kwargs) : Kwargs :=
  { kw with
    content_type := some (kw.content_type.getD inst.content_type)
    object_pk := some (kw.object_pk.getD inst.pk)
    object_repr := some (kw.object_repr.getD inst.strRepr)
    object_id :=
      match inst.pk with
      | PkValue.intPk n => some (kw.object_id.getD n)
      | _ => kw.object_id }

/-- The row built by `self.create(**kwargs)` at the end of `log_create`.
After the setdefault block the identity and repr keys are always present,
so the `getD` defaults on those fields are never reached. -/
def newRow (inst : MInstance) (kw0 : Kwargs) (ch : String) : LogEntry :=
  { content_type := (effKwargs inst kw0).content_type.getD 0
    object_pk := (effKwargs inst kw0).object_pk.getD (PkValue.strPk "")
    object_id := (effKwargs inst kw0).object_id
    object_repr := (effKwargs inst kw0).object_repr.getD ""
    action := (effKwargs inst kw0).action
    changes := ch }

/-- The dedup filter `self.filter(content_type=kwargs.get('content_type'),
object_id=kwargs.get('object_id'))` applied to one row. -/
def matchesNumericId (kw : Kwargs) (r : LogEntry) : Bool :=
  decide (some r.content_type = kw.content_type ∧ r.object_id = kw.object_id)

/-- The fallback dedup filter `self.filter(content_type=kwargs.get('content_type'),
object_pk=kwargs.get('object_pk', ''))` applied to one row; the source's
empty-string default for the `object_pk` lookup is kept verbatim. -/
def matchesTextPk (kw : Kwargs) (r : LogEntry) : Bool :=
  decide (some r.content_type = kw.content_type ∧
    r.object_pk = kw.object_pk.getD (PkValue.strPk ""))

/-- `LogEntryManager.log_create(instance, **kwargs)` over a database given as
the list of existing rows.  Returns the value `log_create` returns (the
created row, or `None` when no changes were supplied) together with the
database after the call.  The dedup block runs only for `action=CREATE`:
when `object_id` is present and some row matches `(content_type, object_id)`
those rows are deleted, otherwise all rows matching
`(content_type, object_pk)` are deleted. -/
def log_create (db : List LogEntry) (inst : MInstance) (kw0 : Kwargs) :
    Option LogEntry × List LogEntry :=
  match kw0.changes with
  | none => (none, db)
  | some ch =>
    let kw := effKwargs inst kw0
    let db1 :=
      if kw.action = some LogEntry.Action.CREATE then
        if kw.object_id ≠ none ∧ db.any (matchesNumericId kw) = true then
          db.filter (fun r => !(matchesNumericId kw r))
        else
          db.filter (fun r => !(matchesTextPk kw r))
      else db
    (some (newRow inst kw0 ch), db1 ++ [newRow inst kw0 ch])

/-- `LogEntryManager.get_for_object(instance)`: filter by the indexed
integer key when the instance's pk is an `int`, else by the textual key. -/
def get_for_object (db : List LogEntry) (inst : MInstance) : List LogEntry :=
  match inst.pk with
  | PkValue.intPk n =>
    db.filter (fun r =>
      decide (r.content_type = inst.content_type ∧ r.object_id = some n))
  | _ =>
    db.filter (fun r =>
      decide (r.content_type = inst.content_type ∧ r.object_pk = inst.pk))

/-- `LogEntryManager.get_for_model(model)`. -/
def get_for_model (db : List LogEntry) (ct : Nat) : List LogEntry :=
  db.filter (fun r => decide (r.content_type = ct))

/-- The target identity of a row `nr`, as the spec words it: content type
plus `object_id` when a numeric id applies, else content type plus
`object_pk`.  `sharesIdentity nr r` says row `r` carries the same identity
as row `nr`. -/
def sharesIdentity (nr r : LogEntry) : Bool :=
  decide (r.content_type = nr.content_type) &&
    (match nr.object_id with
     | some n => decide (r.object_id = some n)
     | none => decide (r.object_pk = nr.object_pk))

/-! ## Middleware (`auditlog/middleware.py`) -/

/-- The in-flight request as the bridge sees it: the `META` dictionary
restricted to a string association list, and the value of
`request.get_full_path()` as a string. -/
structure Request where
  meta : List (String × String)
  fullPath : String
deriving DecidableEq

/-- Dictionary lookup in `request.META`. -/
def metaLookup (r : Request) (k : String) : Option String :=
  (r.meta.find? (fun p => decide (p.1 = k))).map (fun p => p.2)

/-- Python's `ip.split(',')[0]`: the characters before the first comma
(`''.split(',')[0]` is `''`). -/
def pySplitFirst (s : String) : String :=
  String.mk (s.data.takeWhile (fun c => !(decide (c = ','))))

/-- `get_current_ip()`: with no current request, `None`; otherwise pick the
forwarded-for header, else the `Client-IP` header, else `REMOTE_ADDR`
(whose absence would raise `KeyError`, modelled as `none`), and return the
chosen value's first comma-separated entry. -/
def get_current_ip : Option Request → Option String
  | none => none
  | some r =>
    match metaLookup r "HTTP_X_FORWARDED_FOR" with
    | some ip => some (pySplitFirst ip)
    | none =>
      match metaLookup r "Client-IP" with
      | some ip => some (pySplitFirst ip)
      | none => (metaLookup r "REMOTE_ADDR").map pySplitFirst

/-- `get_current_path()`: with no current request, `''`; otherwise
`request.get_full_path()[:255]` (the first 255 characters). -/
def get_current_path : Option Request → String
  | none => ""
  | some r => String.mk (r.fullPath.data.take 255)

/-! ## JSON parsing (`json.loads`, used by `LogEntry.changes_dict`)

The `changes` text is decoded with the standard library's `json.loads`;
the decoder below models it on the JSON grammar (objects, arrays, strings
with escapes, numbers kept as their lexical token, literals, and Python's
default acceptance of `NaN`/`Infinity`/`-Infinity`).  A failed parse models
the `ValueError` that `changes_dict` catches. -/

/-- A decoded JSON value.  Numbers are kept as their lexical token: no
claim inspects a numeric value, only syntactic validity matters here. -/
inductive Json where
  | jnull : Json
  | jbool : Bool → Json
  | jnum : String → Json
  | jstr : String → Json
  | jarr : List Json → Json
  | jobj : List (String × Json) → Json

/-- JSON insignificant whitespace. -/
def isWs (c : Char) : Bool :=
  decide (c = ' ') || decide (c = '\t') || decide (c = '\n') || decide (c = '\r')

/-- Drop leading whitespace. -/
def skipWs : List Char → List Char
  | [] => []
  | c :: cs => if isWs c then skipWs cs else c :: cs

/-- Value of one hex digit. -/
def hexVal (c : Char) : Option Nat :=
  if decide ('0' ≤ c) ∧ decide (c ≤ '9') then some (c.toNat - 48)
  else if decide ('a' ≤ c) ∧ decide (c ≤ 'f') then some (c.toNat - 87)
  else if decide ('A' ≤ c) ∧ decide (c ≤ 'F') then some (c.toNat - 55)
  else none

/-- Single-character string escapes. -/
def escChar (e : Char) : Option Char :=
  if decide (e = '"') then some '"'
  else if decide (e = '\\') then some '\\'
  else if decide (e = '/') then some '/'
  else if decide (e = 'b') then some (Char.ofNat 8)
  else if decide (e = 'f') then some (Char.ofNat 12)
  else if decide (e = 'n') then some '\n'
  else if decide (e = 'r') then some '\r'
  else if decide (e = 't') then some '\t'
  else none

/-- Parse the body of a JSON string after the opening quote, returning the
decoded characters and the input after the closing quote. -/
def parseStrChars : List Char → Option (List Char × List Char)
  | [] => none
  | '"' :: cs => some ([], cs)
  | '\\' :: 'u' :: h1 :: h2 :: h3 :: h4 :: cs =>
    match hexVal h1, hexVal h2, hexVal h3, hexVal h4 with
    | some a, some b, some c, some d =>
      (parseStrChars cs).map
        (fun p => (Char.ofNat (((a * 16 + b) * 16 + c) * 16 + d) :: p.1, p.2))
    | _, _, _, _ => none
  | '\\' :: e :: cs =>
    match escChar e with
    | some ec => (parseStrChars cs).map (fun p => (ec :: p.1, p.2))
    | none => none
  | c :: cs =>
    if c.toNat < 32 then none
    else (parseStrChars cs).map (fun p => (c :: p.1, p.2))

/-- Match an exact sequence of characters. -/
def expectChars : List Char → List Char → Option (List Char)
  | [], s => some s
  | _ :: _, [] => none
  | p :: ps, c :: cs => if decide (p = c) then expectChars ps cs else none

/-- Longest digit span. -/
def spanDigits : List Char → List Char × List Char
  | [] => ([], [])
  | c :: cs =>
    if c.isDigit then
      let p := spanDigits cs
      (c :: p.1, p.2)
    else ([], c :: cs)

/-- The integer part of a JSON number (a lone `0`, or a nonzero digit
followed by digits). -/
def parseIntPart : List Char → Option (List Char × List Char)
  | [] => none
  | '0' :: cs => some (['0'], cs)
  | c :: cs =>
    if c.isDigit then
      let p := spanDigits cs
      some (c :: p.1, p.2)
    else none

/-- The optional fraction part. -/
def parseFracPart : List Char → Option (List Char × List Char)
  | '.' :: cs =>
    match spanDigits cs with
    | ([], _) => none
    | (ds, r) => some ('.' :: ds, r)
  | s => some ([], s)

/-- The optional exponent part. -/
def parseExpPart : List Char → Option (List Char × List Char)
  | [] => some ([], [])
  | e :: cs =>
    if decide (e = 'e') ∨ decide (e = 'E') then
      let sp : List Char × List Char :=
        match cs with
        | '+' :: t => (['+'], t)
        | '-' :: t => (['-'], t)
        | t => ([], t)
      match spanDigits sp.2 with
      | ([], _) => none
      | (ds, r) => some (e :: (sp.1 ++ ds), r)
    else some ([], e :: cs)

/-- A JSON number, returned as its lexical token. -/
def parseNum (s : List Char) : Option (Json × List Char) :=
  let sp : List Char × List Char :=
    match s with
    | '-' :: t => (['-'], t)
    | t => ([], t)
  match parseIntPart sp.2 with
  | none => none
  | some (ip, r1) =>
    match parseFracPart r1 with
    | none => none
    | some (fp, r2) =>
      match parseExpPart r2 with
      | none => none
      | some (ep, r3) => some (Json.jnum (String.mk (sp.1 ++ ip ++ fp ++ ep)), r3)

/-- What the fueled decoder is currently parsing: a value, the members of
an object (accumulated so far), or the elements of an array. -/
inductive PTask where
  | pval : PTask
  | pmembers : List (String × Json) → PTask
  | pelems : List Json → PTask

/-- The fueled JSON decoder.  Each recursive step spends one unit of fuel;
`jsonParse` supplies enough fuel for any input of its length. -/
def parseRun : Nat → PTask → List Char → Option (Json × List Char)
  | 0, _, _ => none
  | Nat.succ fuel, PTask.pval, input =>
    match skipWs input with
    | [] => none
    | c :: rest =>
      if decide (c = '"') then
        (parseStrChars rest).map (fun p => (Json.jstr (String.mk p.1), p.2))
      else if decide (c = '{') then
        match skipWs rest with
        | '}' :: r2 => some (Json.jobj [], r2)
        | _ => parseRun fuel (PTask.pmembers []) rest
      else if decide (c = '[') then
        match skipWs rest with
        | ']' :: r2 => some (Json.jarr [], r2)
        | _ => parseRun fuel (PTask.pelems []) rest
      else if decide (c = 't') then
        (expectChars ("rue".data) rest).map (fun r => (Json.jbool true, r))
      else if decide (c = 'f') then
        (expectChars ("alse".data) rest).map (fun r => (Json.jbool false, r))
      else if decide (c = 'n') then
        (expectChars ("ull".data) rest).map (fun r => (Json.jnull, r))
      else if decide (c = 'N') then
        (expectChars ("aN".data) rest).map (fun r => (Json.jnum "NaN", r))
      else if decide (c = 'I') then
        (expectChars ("nfinity".data) rest).map (fun r => (Json.jnum "Infinity", r))
      else if decide (c = '-') then
        match expectChars ("Infinity".data) rest with
        | some r => some (Json.jnum "-Infinity", r)
        | none => parseNum (c :: rest)
      else parseNum (c :: rest)
  | Nat.succ fuel, PTask.pmembers acc, input =>
    match skipWs input with
    | '"' :: r =>
      match parseStrChars r with
      | none => none
      | some (key, r2) =>
        match skipWs r2 with
        | ':' :: r3 =>
          match parseRun fuel PTask.pval r3 with
          | none => none
          | some (v, r4) =>
            match skipWs r4 with
            | ',' :: r5 => parseRun fuel (PTask.pmembers (acc ++ [(String.mk key, v)])) r5
            | '}' :: r5 => some (Json.jobj (acc ++ [(String.mk key, v)]), r5)
            | _ => none
        | _ => none
    | _ => none
  | Nat.succ fuel, PTask.pelems acc, input =>
    match parseRun fuel PTask.pval input with
    | none => none
    | some (v, r1) =>
      match skipWs r1 with
      | ',' :: r2 => parseRun fuel (PTask.pelems (acc ++ [v])) r2
      | ']' :: r2 => some (Json.jarr (acc ++ [v]), r2)
      | _ => none

/-- `json.loads` on the grammar above: parse one value and require only
whitespace to remain; any failure models the `ValueError`. -/
def jsonParse (s : String) : Option Json :=
  match parseRun (2 * s.data.length + 2) PTask.pval s.data with
  | some (v, rest) => if skipWs rest = [] then some v else none
  | none => none

/-- `LogEntry.changes_dict`: `json.loads(self.changes)`, degrading to the
empty mapping on a `ValueError`. -/
def changes_dict (e : LogEntry) : Json :=
  (jsonParse e.changes).getD (Json.jobj [])

/-- One `field<colon><old><arrow><new>` substring of `changes_str`, with the
default tokens (the property is always invoked with its defaults).  The
source formats `values[0]` and `values[1]` with the `:s` format code; a
value that is not a pair of strings is the formatting-error path, `none`. -/
def renderPair : String × Json → Option String
  | (f, Json.jarr (Json.jstr a :: Json.jstr b :: _)) =>
    some (f ++ ": " ++ a ++ " → " ++ b)
  | _ => none

/-- `LogEntry.changes_str`: render every entry of `changes_dict` and join
with the default separator.  Iterating something that is not a mapping is
the error path, `none`. -/
def changes_str (e : LogEntry) : Option String :=
  match changes_dict e with
  | Json.jobj kvs => (kvs.mapM renderPair).map (fun l => String.intercalate "; " l)
  | _ => none

/-! ## Concrete inputs used by the closed theorems and witnesses -/

/-- An instance whose non-integer primary key is the empty string. -/
def inst_c5 : MInstance :=
  { content_type := 1, pk := PkValue.strPk "", strRepr := "obj" }

/-- A pre-existing row of the same content type whose textual key is the
empty string and which carries no numeric id. -/
def victim_c5 : LogEntry :=
  { content_type := 1, object_pk := PkValue.strPk "", object_id := none,
    object_repr := "other", action := some LogEntry.Action.UPDATE, changes := "x" }

/-- CREATE kwargs that supply no identity keys. -/
def kw_c5 : Kwargs :=
  { changes := some "c", action := some LogEntry.Action.CREATE,
    content_type := none, object_pk := none, object_id := none, object_repr := none }

/-- A row whose only purpose is to hold the change set of claim C6. -/
def entry_c6 : LogEntry :=
  { content_type := 1, object_pk := PkValue.intPk 1, object_id := some 1,
    object_repr := "obj", action := some LogEntry.Action.UPDATE,
    changes := "\x7b\"name\": [\"old\", \"new\"]\x7d" }

/-- A row whose stored change text is not valid JSON. -/
def entry_c9 : LogEntry :=
  { content_type := 1, object_pk := PkValue.intPk 1, object_id := some 1,
    object_repr := "obj", action := some LogEntry.Action.UPDATE,
    changes := "not valid json" }

/-- A request carrying a comma-separated value in its `Client-IP` header
and no forwarded-for header. -/
def req_c7 : Request :=
  { meta := [("Client-IP", "1.2.3.4,5.6.7.8"), ("REMOTE_ADDR", "9.9.9.9")],
    fullPath := "/" }

/-! ## Further concrete inputs for witnesses -/

/-- An instance with integer pk 7 for the C1 witness. -/
def inst_c1 : MInstance := { content_type := 2, pk := PkValue.intPk 7, strRepr := "obj7" }

/-- A stale row carrying the reused identity (content type 2, object id 7). -/
def old_c1 : LogEntry :=
  { content_type := 2, object_pk := PkValue.strPk "stale", object_id := some 7,
    object_repr := "stale", action := some LogEntry.Action.CREATE, changes := "x" }

/-- CREATE kwargs for the C1 witness. -/
def kw_c1 : Kwargs :=
  { changes := some "c", action := some LogEntry.Action.CREATE,
    content_type := none, object_pk := none, object_id := none, object_repr := none }

/-- An instance for the C2 witness. -/
def inst_c2 : MInstance := { content_type := 3, pk := PkValue.intPk 4, strRepr := "obj4" }

/-- A pre-existing row with the same identity as the C2 instance. -/
def old_c2 : LogEntry :=
  { content_type := 3, object_pk := PkValue.intPk 4, object_id := some 4,
    object_repr := "obj4", action := some LogEntry.Action.CREATE, changes := "x" }

/-- UPDATE kwargs for the C2 witness. -/
def kw_c2 : Kwargs :=
  { changes := some "c", action := some LogEntry.Action.UPDATE,
    content_type := none, object_pk := none, object_id := none, object_repr := none }

/-- An instance for the C3 witness. -/
def inst_c3 : MInstance := { content_type := 1, pk := PkValue.intPk 1, strRepr := "obj1" }

/-- kwargs without a change set for the C3 witness. -/
def kw_c3 : Kwargs :=
  { changes := none, action := some LogEntry.Action.DELETE,
    content_type := none, object_pk := none, object_id := none, object_repr := none }

/-- An instance with a textual pk for the C4 witness. -/
def inst_c4 : MInstance := { content_type := 6, pk := PkValue.strPk "key-a", strRepr := "objA" }

/-- UPDATE kwargs supplying no identity keys for the C4 witness. -/
def kw_c4 : Kwargs :=
  { changes := some "c", action := some LogEntry.Action.UPDATE,
    content_type := none, object_pk := none, object_id := none, object_repr := none }

/-- An instance with integer pk 5 for the C10 witness. -/
def inst_c10 : MInstance := { content_type := 1, pk := PkValue.intPk 5, strRepr := "obj5" }

/-- A row sharing only the textual key with the C10 instance (no numeric id). -/
def sharer_c10 : LogEntry :=
  { content_type := 1, object_pk := PkValue.intPk 5, object_id := none,
    object_repr := "textual", action := some LogEntry.Action.UPDATE, changes := "x" }

/-- CREATE kwargs for the C10 witness. -/
def kw_c10 : Kwargs :=
  { changes := some "c", action := some LogEntry.Action.CREATE,
    content_type := none, object_pk := none, object_id := none, object_repr := none }

/-! ## Helper lemmas about the manager -/

/-- The setdefault block never touches `action`. -/
theorem effKwargs_action (inst : MInstance) (kw : Kwargs) :
    (effKwargs inst kw).action = kw.action := rfl

/-- The created row's content type is the defaulted kwargs value. -/
theorem newRow_content_type (inst : MInstance) (kw0 : Kwargs) (ch : String) :
    some (newRow inst kw0 ch).content_type = (effKwargs inst kw0).content_type := rfl

/-- The created row's `object_id` is the defaulted kwargs value. -/
theorem newRow_object_id (inst : MInstance) (kw0 : Kwargs) (ch : String) :
    (newRow inst kw0 ch).object_id = (effKwargs inst kw0).object_id := rfl

/-- The created row's `object_pk` is the defaulted kwargs value. -/
theorem newRow_object_pk (inst : MInstance) (kw0 : Kwargs) (ch : String) :
    some (newRow inst kw0 ch).object_pk = (effKwargs inst kw0).object_pk := rfl

/-- Unfolding `log_create` when a change set is present. -/
theorem log_create_some (db : List LogEntry) (inst : MInstance) (kw0 : Kwargs)
    (ch : String) (hch : kw0.changes = some ch) :
    log_create db inst kw0 =
      (some (newRow inst kw0 ch),
       (if (effKwargs inst kw0).action = some LogEntry.Action.CREATE then
          if (effKwargs inst kw0).object_id ≠ none ∧
              db.any (matchesNumericId (effKwargs inst kw0)) = true then
            db.filter (fun r => !(matchesNumericId (effKwargs inst kw0) r))
          else
            db.filter (fun r => !(matchesTextPk (effKwargs inst kw0) r))
        else db) ++ [newRow inst kw0 ch]) := by
  unfold log_create
  rw [hch]

/-- Every row shares its own identity. -/
theorem sharesIdentity_self (nr : LogEntry) : sharesIdentity nr nr = true := by
  unfold sharesIdentity
  cases h : nr.object_id <;> simp [h]

/-- With a numeric id present, sharing the new row's identity means matching
the numeric dedup filter. -/
theorem sharesIdentity_imp_numeric (inst : MInstance) (kw0 : Kwargs) (ch : String)
    (x : LogEntry) (n : Int) (hid : (effKwargs inst kw0).object_id = some n)
    (h : sharesIdentity (newRow inst kw0 ch) x = true) :
    matchesNumericId (effKwargs inst kw0) x = true := by
  unfold sharesIdentity at h
  rw [newRow_object_id, hid] at h
  simp only [Bool.and_eq_true, decide_eq_true_eq] at h
  unfold matchesNumericId
  simp only [decide_eq_true_eq]
  refine ⟨?_, by rw [hid]; exact h.2⟩
  rw [h.1]
  exact newRow_content_type inst kw0 ch

/-- With no numeric id, sharing the new row's identity means matching the
textual dedup filter. -/
theorem sharesIdentity_imp_text (inst : MInstance) (kw0 : Kwargs) (ch : String)
    (x : LogEntry) (hid : (effKwargs inst kw0).object_id = none)
    (h : sharesIdentity (newRow inst kw0 ch) x = true) :
    matchesTextPk (effKwargs inst kw0) x = true := by
  unfold sharesIdentity at h
  rw [newRow_object_id, hid] at h
  simp only [Bool.and_eq_true, decide_eq_true_eq] at h
  unfold matchesTextPk
  simp only [decide_eq_true_eq]
  constructor
  · rw [h.1]; exact newRow_content_type inst kw0 ch
  · rw [h.2]; rfl

/-- Appending one matching row to rows that all fail a filter leaves exactly
that row. -/
theorem filter_append_single {α : Type} (p : α → Bool) (l : List α) (a : α)
    (hpa : p a = true) (hl : ∀ x ∈ l, p x = false) :
    List.filter p (l ++ [a]) = [a] := by
  rw [List.filter_append]
  have h1 : l.filter p = [] := by
    rw [List.filter_eq_nil_iff]
    intro x hx
    simp [hl x hx]
  rw [h1]
  simp [List.filter, hpa]

/-! ## Claim theorems -/

/-- Claim C3: when no change set is supplied, `log_create` returns `None`
and leaves the database untouched, whatever the action. -/
theorem log_create_no_changes_noop (db : List LogEntry) (inst : MInstance)
    (kw0 : Kwargs) (hch : kw0.changes = none) :
    log_create db inst kw0 = (none, db) := by
  unfold log_create
  rw [hch]

/-- Witness for C3 at a concrete instance and kwargs. -/
theorem log_create_no_changes_noop_witness :
    kw_c3.changes = none ∧ log_create [] inst_c3 kw_c3 = (none, []) :=
  ⟨rfl, log_create_no_changes_noop [] inst_c3 kw_c3 rfl⟩

/-- Claim C2: with a change set and action UPDATE or DELETE, no existing row
is deleted and exactly one new row is appended. -/
theorem log_create_update_delete_appends (db : List LogEntry) (inst : MInstance)
    (kw0 : Kwargs) (ch : String) (hch : kw0.changes = some ch)
    (hact : kw0.action = some LogEntry.Action.UPDATE ∨
            kw0.action = some LogEntry.Action.DELETE) :
    log_create db inst kw0 = (some (newRow inst kw0 ch), db ++ [newRow inst kw0 ch]) := by
  rw [log_create_some db inst kw0 ch hch]
  have hne : ¬((effKwargs inst kw0).action = some LogEntry.Action.CREATE) := by
    rw [effKwargs_action]
    rcases hact with h | h <;> rw [h] <;> decide
  rw [if_neg hne]

/-- Witness for C2: an UPDATE over a database holding a colliding row. -/
theorem log_create_update_delete_appends_witness :
    kw_c2.changes = some "c" ∧
    kw_c2.action = some LogEntry.Action.UPDATE ∧
    log_create [old_c2] inst_c2 kw_c2 =
      (some (newRow inst_c2 kw_c2 "c"), [old_c2] ++ [newRow inst_c2 kw_c2 "c"]) :=
  ⟨rfl, rfl,
   log_create_update_delete_appends [old_c2] inst_c2 kw_c2 "c" rfl (Or.inl rfl)⟩

/-- Claim C1: for a CREATE with a change set whose identity collides with
existing rows, after the call the only row carrying that identity is the
newly created one (all prior rows sharing it were deleted first). -/
theorem log_create_create_collision_unique (db : List LogEntry) (inst : MInstance)
    (kw0 : Kwargs) (ch : String) (hch : kw0.changes = some ch)
    (hact : kw0.action = some LogEntry.Action.CREATE)
    (hcol : ∃ r ∈ db, sharesIdentity (newRow inst kw0 ch) r = true) :
    (log_create db inst kw0).1 = some (newRow inst kw0 ch) ∧
    (log_create db inst kw0).2.filter (sharesIdentity (newRow inst kw0 ch)) =
      [newRow inst kw0 ch] := by
  rw [log_create_some db inst kw0 ch hch]
  have hacte : (effKwargs inst kw0).action = some LogEntry.Action.CREATE := by
    rw [effKwargs_action]; exact hact
  rw [if_pos hacte]
  refine ⟨rfl, ?_⟩
  by_cases hc : ((effKwargs inst kw0).object_id ≠ none ∧
      db.any (matchesNumericId (effKwargs inst kw0)) = true)
  · rw [if_pos hc]
    apply filter_append_single _ _ _ (sharesIdentity_self _)
    intro x hx
    have hxf := (List.mem_filter.mp hx).2
    cases hn : (effKwargs inst kw0).object_id with
    | none => exact absurd hn hc.1
    | some n =>
      cases hs : sharesIdentity (newRow inst kw0 ch) x
      · rfl
      · exfalso
        have hnum := sharesIdentity_imp_numeric inst kw0 ch x n hn hs
        rw [hnum] at hxf
        simp at hxf
  · rw [if_neg hc]
    apply filter_append_single _ _ _ (sharesIdentity_self _)
    intro x hx
    have hxmem := (List.mem_filter.mp hx).1
    have hxf := (List.mem_filter.mp hx).2
    cases hn : (effKwargs inst kw0).object_id with
    | none =>
      cases hs : sharesIdentity (newRow inst kw0 ch) x
      · rfl
      · exfalso
        have htxt := sharesIdentity_imp_text inst kw0 ch x hn hs
        rw [htxt] at hxf
        simp at hxf
    | some n =>
      have hA : (effKwargs inst kw0).object_id ≠ none := by rw [hn]; simp
      have hany : db.any (matchesNumericId (effKwargs inst kw0)) = false := by
        cases hb : db.any (matchesNumericId (effKwargs inst kw0))
        · rfl
        · exact absurd ⟨hA, hb⟩ hc
      cases hs : sharesIdentity (newRow inst kw0 ch) x
      · rfl
      · exfalso
        have hnum := sharesIdentity_imp_numeric inst kw0 ch x n hn hs
        exact (List.any_eq_false.mp hany x hxmem) hnum

/-- Witness for C1: a CREATE reusing identity (content type 2, id 7). -/
theorem log_create_create_collision_unique_witness :
    kw_c1.changes = some "c" ∧
    kw_c1.action = some LogEntry.Action.CREATE ∧
    (∃ r ∈ [old_c1], sharesIdentity (newRow inst_c1 kw_c1 "c") r = true) ∧
    (log_create [old_c1] inst_c1 kw_c1).2.filter
      (sharesIdentity (newRow inst_c1 kw_c1 "c")) = [newRow inst_c1 kw_c1 "c"] :=
  ⟨rfl, rfl, by decide,
   (log_create_create_collision_unique [old_c1] inst_c1 kw_c1 "c" rfl rfl (by decide)).2⟩

/-- Claim C10: a CREATE whose kwargs carry an `object_id` that matches no
existing row falls back to the textual filter: the new database is the old
one purged of every row matching `(content_type, object_pk)`, so rows
sharing only the textual key are deleted. -/
theorem log_create_numeric_miss_textual_fallback (db : List LogEntry)
    (inst : MInstance) (kw0 : Kwargs) (ch : String) (n : Int)
    (hch : kw0.changes = some ch)
    (hact : kw0.action = some LogEntry.Action.CREATE)
    (hid : (effKwargs inst kw0).object_id = some n)
    (hmiss : db.any (matchesNumericId (effKwargs inst kw0)) = false) :
    (log_create db inst kw0).2 =
      db.filter (fun r => !(matchesTextPk (effKwargs inst kw0) r)) ++
        [newRow inst kw0 ch] ∧
    ∀ r ∈ db, matchesTextPk (effKwargs inst kw0) r = true →
      r ∉ (log_create db inst kw0).2 := by
  have hacte : (effKwargs inst kw0).action = some LogEntry.Action.CREATE := by
    rw [effKwargs_action]; exact hact
  have hnc : ¬((effKwargs inst kw0).object_id ≠ none ∧
      db.any (matchesNumericId (effKwargs inst kw0)) = true) := by
    intro hcon
    rw [hmiss] at hcon
    exact absurd hcon.2 (by simp)
  have heq : (log_create db inst kw0).2 =
      db.filter (fun r => !(matchesTextPk (effKwargs inst kw0) r)) ++
        [newRow inst kw0 ch] := by
    rw [log_create_some db inst kw0 ch hch, if_pos hacte, if_neg hnc]
  refine ⟨heq, ?_⟩
  intro r hr hmatch
  rw [heq]
  intro hmem
  rcases List.mem_append.mp hmem with hmem1 | hmem2
  · have hkeep := (List.mem_filter.mp hmem1).2
    rw [hmatch] at hkeep
    simp at hkeep
  · have hrnr : r = newRow inst kw0 ch := by simpa using hmem2
    have hnum : matchesNumericId (effKwargs inst kw0) r = true := by
      unfold matchesNumericId
      simp only [decide_eq_true_eq]
      constructor
      · rw [hrnr]; exact newRow_content_type inst kw0 ch
      · rw [hrnr, newRow_object_id]
    exact (List.any_eq_false.mp hmiss r hr) hnum

/-- Witness for C10: the CREATE for pk 5 deletes the row that shares only
the textual key (its numeric id is absent). -/
theorem log_create_numeric_miss_textual_fallback_witness :
    kw_c10.changes = some "c" ∧
    kw_c10.action = some LogEntry.Action.CREATE ∧
    (effKwargs inst_c10 kw_c10).object_id = some 5 ∧
    [sharer_c10].any (matchesNumericId (effKwargs inst_c10 kw_c10)) = false ∧
    sharer_c10 ∉ (log_create [sharer_c10] inst_c10 kw_c10).2 :=
  ⟨rfl, rfl, by decide, by decide,
   (log_create_numeric_miss_textual_fallback [sharer_c10] inst_c10 kw_c10 "c" 5
      rfl rfl (by decide) (by decide)).2 sharer_c10 (by decide) (by decide)⟩

/-- Claim C4: a row created by `log_create` from an instance (identity keys
not overridden in the kwargs) is returned by `get_for_object` on that same
instance, through the integer key when the pk is an `int` and the textual
key otherwise. -/
theorem get_for_object_returns_created_row (db : List LogEntry)
    (inst : MInstance) (kw0 : Kwargs) (ch : String)
    (hch : kw0.changes = some ch) (hct : kw0.content_type = none)
    (hpk : kw0.object_pk = none) (hid : kw0.object_id = none) :
    newRow inst kw0 ch ∈ get_for_object (log_create db inst kw0).2 inst := by
  obtain ⟨l, hl⟩ : ∃ l, (log_create db inst kw0).2 = l ++ [newRow inst kw0 ch] := by
    rw [log_create_some db inst kw0 ch hch]
    exact ⟨_, rfl⟩
  rw [hl]
  have hmem : newRow inst kw0 ch ∈ l ++ [newRow inst kw0 ch] :=
    List.mem_append.mpr (Or.inr (by simp))
  unfold get_for_object
  cases hp : inst.pk with
  | intPk n =>
    apply List.mem_filter.mpr
    refine ⟨hmem, ?_⟩
    simp only [decide_eq_true_eq]
    constructor
    · show (newRow inst kw0 ch).content_type = inst.content_type
      have h1 : (newRow inst kw0 ch).content_type =
          kw0.content_type.getD inst.content_type := rfl
      rw [h1, hct]
      rfl
    · show (newRow inst kw0 ch).object_id = some n
      rw [newRow_object_id]
      unfold effKwargs
      simp [hp, hid]
  | strPk s =>
    apply List.mem_filter.mpr
    refine ⟨hmem, ?_⟩
    simp only [decide_eq_true_eq]
    constructor
    · show (newRow inst kw0 ch).content_type = inst.content_type
      have h1 : (newRow inst kw0 ch).content_type =
          kw0.content_type.getD inst.content_type := rfl
      rw [h1, hct]
      rfl
    · rw [← hp]
      show (newRow inst kw0 ch).object_pk = inst.pk
      have h2 : (newRow inst kw0 ch).object_pk = kw0.object_pk.getD inst.pk := rfl
      rw [h2, hpk]
      rfl
  | nonePk =>
    apply List.mem_filter.mpr
    refine ⟨hmem, ?_⟩
    simp only [decide_eq_true_eq]
    constructor
    · show (newRow inst kw0 ch).content_type = inst.content_type
      have h1 : (newRow inst kw0 ch).content_type =
          kw0.content_type.getD inst.content_type := rfl
      rw [h1, hct]
      rfl
    · rw [← hp]
      show (newRow inst kw0 ch).object_pk = inst.pk
      have h2 : (newRow inst kw0 ch).object_pk = kw0.object_pk.getD inst.pk := rfl
      rw [h2, hpk]
      rfl

/-- Witness for C4 on an instance with a textual primary key. -/
theorem get_for_object_returns_created_row_witness :
    kw_c4.changes = some "c" ∧
    kw_c4.content_type = none ∧ kw_c4.object_pk = none ∧ kw_c4.object_id = none ∧
    newRow inst_c4 kw_c4 "c" ∈ get_for_object (log_create [] inst_c4 kw_c4).2 inst_c4 :=
  ⟨rfl, rfl, rfl, rfl,
   get_for_object_returns_created_row [] inst_c4 kw_c4 "c" rfl rfl rfl rfl⟩

/-- Claim C5: with the fallback dedup branch taken (no numeric id), a CREATE
whose kwargs lack `object_pk` deletes an unrelated pre-existing row whose
textual key is the empty string: here the instance's own textual pk is
empty, the setdefault installs it, and the ``kwargs.get('object_pk', '')``
lookup makes the delete filter match every empty-keyed row. -/
theorem log_create_empty_textual_key_deletes_unrelated :
    kw_c5.object_pk = none ∧
    kw_c5.action = some LogEntry.Action.CREATE ∧
    victim_c5.object_pk = PkValue.strPk "" ∧
    victim_c5 ∉ (log_create [victim_c5] inst_c5 kw_c5).2 := by decide

/-- Claim C6: the diff string of `{"name": ["old", "new"]}` is exactly
field name, colon token, old value, arrow token, new value. -/
theorem changes_str_single_field_format :
    changes_str entry_c6 = some "name: old → new" := by rfl

/-- Claim C9: whenever the stored change text fails to parse, the
diff-dictionary accessor returns the empty mapping. -/
theorem changes_dict_invalid_json_empty (e : LogEntry)
    (h : jsonParse e.changes = none) : changes_dict e = Json.jobj [] := by
  unfold changes_dict
  rw [h]
  rfl

/-- Witness for C9 on a row whose change text is not JSON. -/
theorem changes_dict_invalid_json_empty_witness :
    jsonParse entry_c9.changes = none ∧ changes_dict entry_c9 = Json.jobj [] :=
  ⟨rfl, changes_dict_invalid_json_empty entry_c9 rfl⟩

/-- Claim C7 counterexample: with no forwarded-for header and a `Client-IP`
header containing a comma, the code does not return that header's value; it
returns only the part before the comma, because `ip.split(',')[0]` is
applied to every branch, not just the forwarded-for one. -/
theorem get_current_ip_client_ip_comma_cex :
    metaLookup req_c7 "HTTP_X_FORWARDED_FOR" = none ∧
    metaLookup req_c7 "Client-IP" = some "1.2.3.4,5.6.7.8" ∧
    get_current_ip (some req_c7) = some "1.2.3.4" ∧
    ("1.2.3.4" : String) ≠ "1.2.3.4,5.6.7.8" := by decide

/-- Claim C7 as amended: the source is chosen in the priority order
forwarded-for, then `Client-IP`, then `REMOTE_ADDR`, and the returned value
is the first comma-separated entry of whichever source was chosen. -/
theorem get_current_ip_priority_order (r : Request) :
    get_current_ip (some r) =
      (Option.orElse (metaLookup r "HTTP_X_FORWARDED_FOR")
        (fun _ => Option.orElse (metaLookup r "Client-IP")
          (fun _ => metaLookup r "REMOTE_ADDR"))).map pySplitFirst := by
  unfold get_current_ip
  cases h1 : metaLookup r "HTTP_X_FORWARDED_FOR" <;>
    cases h2 : metaLookup r "Client-IP" <;>
      cases h3 : metaLookup r "REMOTE_ADDR" <;>
        simp [h1, h2, h3, Option.orElse]

/-- Claim C8: the captured request path never exceeds 255 characters, and
for a live request it is exactly the first 255 characters of the full
path. -/
theorem get_current_path_truncates :
    (∀ req : Option Request, (get_current_path req).length ≤ 255) ∧
    (∀ r : Request, (get_current_path (some r)).data = r.fullPath.data.take 255) := by
  constructor
  · intro req
    cases req with
    | none => simp [get_current_path]
    | some r =>
      show (String.mk (r.fullPath.data.take 255)).length ≤ 255
      have h1 : (String.mk (r.fullPath.data.take 255)).length =
          (r.fullPath.data.take 255).length := rfl
      rw [h1, List.length_take]
      exact min_le_left _ _
  · intro r
    rfl
